import Mathlib

set_option maxRecDepth 8000

namespace Nkn

/-! Shallow embedding of the nkn-client-go multi-path messaging client
(src/multiclient.go).  Overlay addresses and byte strings are modelled as
lists of characters (`Str`).  The concurrent fan-in router is modelled as a
fold of a step function over a list of timestamped inbound events; the
cache (github.com/patrickmn/go-cache) is modelled as an association list
from keys to absolute expiration times, where a key is seen at time `now`
iff `now` does not exceed its stored expiration, exactly as go-cache's
`Get` checks, and `Set` stores `now + ttl`. -/

abbrev Str : Type := List Char

/-- A decimal digit character: code point 48 + d. -/
def digitChar (d : Nat) : Char := Char.ofNat (48 + d)

/-- Fuel-driven decimal rendering of a natural number, most significant digit
first; with fuel at least 1 it renders at least one digit, and fuel `n+1`
is always sufficient for `n`. -/
def renderNatAux : Nat → Nat → List Char
  | 0, _ => []
  | fuel + 1, n =>
    if n < 10 then [digitChar n]
    else renderNatAux fuel (n / 10) ++ [digitChar (n % 10)]

/-- Decimal rendering of a natural number (the `strconv.Itoa` of the tag). -/
def renderNat (n : Nat) : List Char := renderNatAux (n + 1) n

/-- The literal subclient tag `__<decimal n>__` (spec: wire conventions). -/
def tagChars (n : Nat) : Str :=
  '_' :: '_' :: (renderNat n ++ ['_', '_'])

/-- Split a string at its first dot, as Go's strings.SplitN(s, ".", 2):
`none` when the string has no dot, otherwise the part before and after. -/
def splitFirstDot : Str → Option (Str × Str)
  | [] => none
  | c :: cs =>
    if c = '.' then some ([], cs)
    else
      match splitFirstDot cs with
      | none => none
      | some p => some (c :: p.1, p.2)

/-- Recognize `\d+__` : one or more decimal digits followed by exactly two
underscores at the end. -/
def digitsClose : Str → Bool
  | [] => false
  | c :: cs => c.isDigit && (decide (cs = ['_', '_']) || digitsClose cs)

/-- Recognize the identifier regular expression of src/multiclient.go line 24,
`^__\d+__$`, on a whole segment. -/
def isTagSegment : Str → Bool
  | c1 :: c2 :: rest => decide (c1 = '_') && decide (c2 = '_') && digitsClose rest
  | _ => false

/-- Modelled from the spec: removeIdentifier (the `stripTag` of section 4.A) is
called by src/multiclient.go but its definition is not under src/.  Spec:
"stripTag(addr) splits on the first `.`; if the leading segment matches the
regular expression `^__\d+__$`, returns (remainder, matched segment), else
returns (addr, \"\")." -/
def removeIdentifier (src : Str) : Str × Str :=
  match splitFirstDot src with
  | none => (src, [])
  | some p => if isTagSegment p.1 then (p.2, p.1) else (src, [])

/-- Modelled from the spec: addIdentifier (the `addTag` of section 4.A) is
called by src/multiclient.go but its definition is not under src/.  Spec:
"addTag(base, n) returns base when n == -1, else \"__n__.\" + base", and
section 4.D fixes the empty-base case: addTag("", i) is the bare tag
`__i__` (no trailing dot). -/
def addIdentifier (addr : Str) (id : Int) : Str :=
  if id = -1 then addr
  else if addr = [] then tagChars id.toNat
  else tagChars id.toNat ++ '.' :: addr

/-- Whether an address begins with a `__<n>__` dot-separated component (or is
itself such a bare component): the stripper finds a tag to remove. -/
def startsWithTag (s : Str) : Bool := !(removeIdentifier s).2.isEmpty

/-- Association-list lookup with decidable equality, modelling a Go map read
(absent keys read as nil/none). -/
def mapLookup {α β : Type} [DecidableEq α] (k : α) : List (α × β) → Option β
  | [] => none
  | p :: rest => if p.1 = k then some p.2 else mapLookup k rest

/-- Opaque handle for a subclient (the external Client of src/client code);
only its identity matters to the MultiClient layer. -/
structure Client where
  cid : Nat
  deriving DecidableEq

/-- Opaque handle for an ncp session; only its identity matters here. -/
structure SessionH where
  sid : Nat
  deriving DecidableEq

/-- Errors of the external ncp session layer; `closed` is the ncp.Closed
sentinel returned by AcceptSession after Close. -/
inductive NcpErr where
  | closed
  | other
  deriving DecidableEq

/-- The single error of NewMultiClient when every subclient construction
fails (src/multiclient.go line 80). -/
inductive CtorErr where
  | noClientSucceeded
  deriving DecidableEq

/-- The MultiClient state visible to the modelled operations: the index ->
subclient map (holes simply absent), the designated default subclient (a Go
nil pointer modelled as `none`), the session table keyed by the pair
(remote logical address, session id), the closed flag, and whether the
onClose channel has been closed. -/
structure MCModel where
  offset : Nat
  clients : List (Int × Client)
  defaultClient : Option Client
  isClosed : Bool
  onCloseClosed : Bool
  sessions : List ((Str × Str) × SessionH)
  deriving DecidableEq

/-- The subclient indices attempted by NewMultiClient: -1 when the original
client is included, then 0 .. numSubClients-1 (src/multiclient.go line 63). -/
def clientIndices (numSubClients : Nat) (originalClient : Bool) : List Int :=
  (if originalClient then [(-1 : Int)] else []) ++
    (List.range numSubClients).map (fun i => (i : Int))

/-- The client map built by NewMultiClient's construction loop
(src/multiclient.go lines 58-78), with the outcome of each parallel subclient
construction given as a function from index to an optional client (None =
that NewClient call failed; insertions into the map commute, so the
sequential fold is a faithful model of the parallel loop).  Only successful
indices are present. -/
def mcClients (outcome : Int → Option Client) (numSubClients : Nat)
    (originalClient : Bool) : List (Int × Client) :=
  (clientIndices numSubClients originalClient).filterMap
    (fun i => (outcome i).map (fun c => (i, c)))

/-- NewMultiClient (src/multiclient.go lines 45-121): fails exactly when no
subclient construction succeeded (the `success` flag stays false); otherwise
the client map holds the successful indices and the default client is the raw
map read at index -1 (original included) or 0, which is None (a Go nil) when
that index failed. -/
def newMultiClient (outcome : Int → Option Client) (numSubClients : Nat)
    (originalClient : Bool) : Except CtorErr MCModel :=
  if mcClients outcome numSubClients originalClient = [] then
    Except.error CtorErr.noClientSucceeded
  else Except.ok
    { offset := if originalClient then 1 else 0
      clients := mcClients outcome numSubClients originalClient
      defaultClient := mapLookup (if originalClient then (-1 : Int) else 0)
        (mcClients outcome numSubClients originalClient)
      isClosed := false
      onCloseClosed := false
      sessions := [] }

/-- Successful result of an Except, as an Option. -/
def exceptOk {ε α : Type} : Except ε α → Option α
  | Except.ok a => some a
  | Except.error _ => none

/-- Whether every write `responseChannels[clientID+offset]` performed by Send
(src/multiclient.go line 216) stays inside the slice of length
`len(m.Clients)` allocated at line 211; when this is false the Go code panics
with an index-out-of-range at runtime. -/
def sendChannelIndexSafe (m : MCModel) : Bool :=
  m.clients.all (fun ic =>
    decide (0 ≤ ic.1 + (m.offset : Int)) &&
      decide (ic.1 + (m.offset : Int) < (m.clients.length : Int)))

/-- The subclient indices the internal broadcast `send` iterates over
(src/multiclient.go line 235): exactly the keys present in the map, so failed
indices are skipped. -/
def broadcastIDs (m : MCModel) : List Int := m.clients.map (fun ic => ic.1)

/-- Opaque error of a single subclient send. -/
inductive SendErr where
  | fail : Nat → SendErr
  deriving DecidableEq

/-- The internal broadcast `send` (src/multiclient.go lines 234-241), over the
client map in its (arbitrary) iteration order, with the outcome of each
per-subclient `sendWithClient` given by `sendRes`.  Returns the list of
indices actually sent to and the first error encountered; the loop returns on
the first error, so no later subclient is sent to. -/
def broadcastSend (sendRes : Int → Option SendErr) :
    List (Int × Client) → List Int × Option SendErr
  | [] => ([], none)
  | ic :: rest =>
    match sendRes ic.1 with
    | some err => ([ic.1], some err)
    | none =>
      (ic.1 :: (broadcastSend sendRes rest).1, (broadcastSend sendRes rest).2)

/-- An inbound message as delivered by a subclient to the fan-in router:
source address, payload id bytes, data, the session flag and the encryption
flag (the Message of the old client, src/multiclient.go lines 142-176). -/
structure InMsg where
  src : Str
  pid : Str
  data : Str
  isSession : Bool
  encrypted : Bool
  deriving DecidableEq

/-- One fan-in router iteration input: which subclient index fired, at what
(integer nanosecond) time, and the message received. -/
structure Event where
  clientIndex : Int
  time : Nat
  msg : InMsg
  deriving DecidableEq

/-- A message as published on the application OnMessage channel. -/
structure OutMsg where
  src : Str
  pid : Str
  data : Str
  encrypted : Bool
  deriving DecidableEq

/-- The transformation applied before publication (src/multiclient.go line
158): the subclient tag is stripped from Src. -/
def publishMsg (m : InMsg) : OutMsg :=
  { src := (removeIdentifier m.src).1
    pid := m.pid
    data := m.data
    encrypted := m.encrypted }

/-- State of the fan-in router: the deduplication cache (key -> absolute
expiration time, as in go-cache) and the list of messages published so far. -/
structure RouterState where
  cache : List (Str × Nat)
  published : List OutMsg
  deriving DecidableEq

/-- go-cache Get at time `now`: found iff the key is present and `now` does
not exceed its expiration (go-cache treats an item as expired exactly when
now > Expiration). -/
def cacheGet (cache : List (Str × Nat)) (k : Str) (now : Nat) : Bool :=
  match mapLookup k cache with
  | some exp => decide (now ≤ exp)
  | none => false

/-- go-cache Set with the default expiration: stores expiration now + ttl. -/
def cacheSet (cache : List (Str × Nat)) (k : Str) (exp : Nat) : List (Str × Nat) :=
  (k, exp) :: cache

/-- One iteration of the fan-in router (src/multiclient.go lines 141-176) on a
non-close event: session messages are delegated to the session manager (no
dedup, no publication); application messages are dropped when their Pid is in
the cache, otherwise the Pid is cached and the message is published with its
Src stripped. -/
def routerStep (ttl : Nat) (st : RouterState) (e : Event) : RouterState :=
  if e.msg.isSession then st
  else if cacheGet st.cache e.msg.pid e.time then st
  else
    { cache := cacheSet st.cache e.msg.pid (e.time + ttl)
      published := st.published ++ [publishMsg e.msg] }

/-- The fan-in router run over a whole trace of inbound events, from the
empty cache. -/
def routeAll (ttl : Nat) (evs : List Event) : RouterState :=
  evs.foldl (routerStep ttl) { cache := [], published := [] }

/-- An event carrying an application (non-session) message with the given
Pid. -/
def isAppWithPid (p : Str) (e : Event) : Bool :=
  !e.msg.isSession && decide (e.msg.pid = p)

/-- The strip applied to the response message returned by Send
(src/multiclient.go line 228) and SendWithClient (line 197). -/
def stripRespMsg (m : InMsg) : InMsg :=
  { m with src := (removeIdentifier m.src).1 }

/-- A source address as actually produced by a peer subclient: a logical
address that is nonempty, does not itself begin with a tag segment, and is
optionally prefixed with one subclient tag. -/
def wellFormedSrc (s : Str) : Prop :=
  ∃ (a : Str) (i : Int), a ≠ [] ∧ startsWithTag a = false ∧
    (i = -1 ∨ 0 ≤ i) ∧ s = addIdentifier a i

/-- Payload types of the payloads package (payloads.proto of the repo). -/
inductive PayloadType where
  | BINARY
  | TEXT
  | ACK
  | SESSION
  deriving DecidableEq

/-- The payload fields relevant to this layer: type tag, Pid, data and the
session flag. -/
structure Payload where
  ptype : PayloadType
  pid : Str
  data : Str
  isSession : Bool
  deriving DecidableEq

/-- Modelled from the spec: newAckPayload is called by src/multiclient.go line
164 but the matching definition is not under src/ (the message.go present is
from a later, incompatible package version).  Spec, wire conventions: "ACK
replies are an ACK-typed payload with Pid equal to the request's Pid". -/
def newAckPayload (pid : Str) : Payload :=
  { ptype := PayloadType.ACK, pid := pid, data := [], isSession := false }

/-- Modelled from the spec: the two-argument newBinaryPayload called by
src/multiclient.go line 166 with an explicit Pid is not under src/.  Spec
section 4.D: the Reply closure "when invoked with bytes, builds a binary
payload for msg.Pid". -/
def newBinaryPayloadWithPid (data pid : Str) : Payload :=
  { ptype := PayloadType.BINARY, pid := pid, data := data, isSession := false }

/-- The effect of invoking a Reply closure: the payload built and the
destinations/encryption of the `m.send` it performs. -/
structure ReplyAction where
  payload : Payload
  dests : List Str
  encrypted : Bool
  deriving DecidableEq

/-- The Reply closure attached by the fan-in router (src/multiclient.go lines
159-174): called with nil it builds an ACK payload for the captured Pid,
called with bytes a binary payload for that Pid, and sends to the (already
stripped) Src with the message's Encrypted flag. -/
def replyClosure (strippedSrc pid : Str) (encrypted : Bool)
    (response : Option Str) : ReplyAction :=
  { payload :=
      match response with
      | none => newAckPayload pid
      | some bs => newBinaryPayloadWithPid bs pid
    dests := [strippedSrc]
    encrypted := encrypted }

/-- Side effects of Close other than the state change: which session keys and
subclient indices had Close invoked on them, and whether the onClose channel
was closed. -/
structure CloseEffects where
  closedSessionKeys : List (Str × Str)
  closedClientIDs : List Int
  closedOnCloseChan : Bool
  deriving DecidableEq

/-- Close (src/multiclient.go lines 378-403): under the lock, an
already-closed MultiClient returns nil immediately with no effect; otherwise
every session and every subclient is closed, the closed flag set, and the
onClose channel closed.  Always returns nil. -/
def closeMC (m : MCModel) : MCModel × Except NcpErr Unit × CloseEffects :=
  if m.isClosed then (m, Except.ok (), ⟨[], [], false⟩)
  else
    ({ m with isClosed := true, onCloseClosed := true },
      Except.ok (),
      ⟨m.sessions.map (fun s => s.1), m.clients.map (fun c => c.1), true⟩)

/-- IsClosed (src/multiclient.go lines 405-409). -/
def isClosedMC (m : MCModel) : Bool := m.isClosed

/-- AcceptSession's select loop (src/multiclient.go lines 356-372) after the
onClose channel has been closed, so the closed branch is always ready.  The
choice oracle resolves the nondeterministic select between a nonempty accept
queue and the closed channel (true = take the queue).  A popped session whose
ncp Accept errors is logged and the loop continues; when the oracle or the
queue is exhausted, or the closed branch is chosen, the ncp.Closed sentinel
is returned. -/
def acceptLoop (acceptRes : SessionH → Except NcpErr SessionH) :
    List Bool → List SessionH → Except NcpErr SessionH
  | [], _ => Except.error NcpErr.closed
  | false :: _, _ => Except.error NcpErr.closed
  | true :: _, [] => Except.error NcpErr.closed
  | true :: ch, s :: q =>
    match acceptRes s with
    | Except.ok s2 => Except.ok s2
    | Except.error _ => acceptLoop acceptRes ch q

/-- The tail of DialWithConfig after the table insertion: on a Dial error the
error is returned (state untouched), otherwise the session is returned. -/
def dialStep (m2 : MCModel) (session : SessionH) :
    Option NcpErr → MCModel × Except NcpErr SessionH
  | some err => (m2, Except.error err)
  | none => (m2, Except.ok session)

/-- DialWithConfig (src/multiclient.go lines 324-354) from the point where the
session id has been generated: the external ncp.NewSession outcome and the
session's Dial outcome are parameters.  On construction success the session
is inserted into the table under (remoteAddr, sessionID) before Dial is
invoked, and a Dial failure returns the error without removing the entry. -/
def dialWithConfig (m : MCModel) (remoteAddr sessionID : Str)
    (newSessionRes : Except NcpErr SessionH) (dialRes : SessionH → Option NcpErr) :
    MCModel × Except NcpErr SessionH :=
  match newSessionRes with
  | Except.error err => (m, Except.error err)
  | Except.ok session =>
    dialStep { m with sessions := ((remoteAddr, sessionID), session) :: m.sessions }
      session (dialRes session)

/-- Concrete construction outcome for the partial-construction scenario of
spec section 8.6: subclient constructions at indices 0 and 2 fail, index 1
succeeds. -/
def outcomeHoles : Int → Option Client :=
  fun i => if i = 1 then some ⟨1⟩ else none

/-- Concrete inbound event whose source address carries two stacked tag
segments. -/
def cexEvent : Event :=
  { clientIndex := 0
    time := 0
    msg :=
      { src := ['_', '_', '1', '_', '_', '.', '_', '_', '2', '_', '_', '.', 'x']
        pid := ['a']
        data := []
        isSession := false
        encrypted := false } }

theorem digitChar_isDigit {d : Nat} (h : d < 10) : (digitChar d).isDigit = true := by
  interval_cases d <;> decide

theorem digitChar_ne_dot {d : Nat} (h : d < 10) : digitChar d ≠ '.' := by
  interval_cases d <;> decide

theorem renderNatAux_ne_nil (fuel n : Nat) : renderNatAux (fuel + 1) n ≠ [] := by
  rw [renderNatAux]
  split
  · simp
  · simp

theorem renderNat_ne_nil (n : Nat) : renderNat n ≠ [] := renderNatAux_ne_nil n n

theorem renderNatAux_digits (fuel : Nat) :
    ∀ n : Nat, ∀ c ∈ renderNatAux fuel n, c.isDigit = true := by
  induction fuel with
  | zero => intro n c hc; simp [renderNatAux] at hc
  | succ fuel ih =>
    intro n c hc
    rw [renderNatAux] at hc
    split at hc
    · rename_i h
      simp only [List.mem_singleton] at hc
      subst hc
      exact digitChar_isDigit h
    · rw [List.mem_append] at hc
      rcases hc with hc | hc
      · exact ih (n / 10) c hc
      · simp only [List.mem_singleton] at hc
        subst hc
        exact digitChar_isDigit (Nat.mod_lt n (by decide))

theorem renderNat_digits (n : Nat) : ∀ c ∈ renderNat n, c.isDigit = true :=
  renderNatAux_digits (n + 1) n

theorem dot_not_mem_tagChars (n : Nat) : '.' ∉ tagChars n := by
  intro hmem
  simp only [tagChars, List.mem_cons, List.mem_append, List.mem_singleton] at hmem
  rcases hmem with h | h | h | h
  · exact absurd h (by decide)
  · exact absurd h (by decide)
  · have := renderNat_digits n _ h
    exact absurd this (by decide)
  · rcases h with h | h
    · exact absurd h (by decide)
    · exact absurd h (by decide)

theorem splitFirstDot_append (pre post : Str) (h : '.' ∉ pre) :
    splitFirstDot (pre ++ '.' :: post) = some (pre, post) := by
  induction pre with
  | nil => simp [splitFirstDot]
  | cons c cs ih =>
    have hc : ¬(c = '.') := fun he => h (he ▸ List.mem_cons_self c cs)
    have hcs : '.' ∉ cs := fun hm => h (List.mem_cons_of_mem c hm)
    simp only [List.cons_append, splitFirstDot, hc, if_false, List.append_eq]
    rw [ih hcs]

theorem digitsClose_append :
    ∀ ds : Str, ds ≠ [] → (∀ c ∈ ds, c.isDigit = true) →
      digitsClose (ds ++ ['_', '_']) = true := by
  intro ds
  induction ds with
  | nil => intro h; exact absurd rfl h
  | cons c cs ih =>
    intro _ hd
    have hc : c.isDigit = true := hd c (List.mem_cons_self c cs)
    cases cs with
    | nil => simp [digitsClose, hc]
    | cons c2 cs2 =>
      have ihr := ih (by simp) (fun x hx => hd x (List.mem_cons_of_mem c hx))
      have hstep : digitsClose ((c :: c2 :: cs2) ++ ['_', '_']) =
          (c.isDigit && (decide ((c2 :: cs2) ++ ['_', '_'] = ['_', '_']) ||
            digitsClose ((c2 :: cs2) ++ ['_', '_']))) := rfl
      rw [hstep, hc, ihr]
      simp

theorem isTagSegment_tagChars (n : Nat) : isTagSegment (tagChars n) = true := by
  simp only [tagChars, isTagSegment]
  rw [digitsClose_append (renderNat n) (renderNat_ne_nil n) (renderNat_digits n)]
  decide

theorem removeIdentifier_eq_none {src : Str} (h : splitFirstDot src = none) :
    removeIdentifier src = (src, []) := by
  unfold removeIdentifier
  rw [h]

theorem removeIdentifier_eq_some {src : Str} {p : Str × Str}
    (h : splitFirstDot src = some p) :
    removeIdentifier src = if isTagSegment p.1 then (p.2, p.1) else (src, []) := by
  unfold removeIdentifier
  rw [h]

theorem removeIdentifier_addIdentifier (a : Str) (n : Nat) (ha : a ≠ []) :
    removeIdentifier (addIdentifier a (n : Int)) = (a, tagChars n) := by
  have hne : ¬((n : Int) = -1) := by omega
  have hform : addIdentifier a (n : Int) = tagChars n ++ '.' :: a := by
    simp [addIdentifier, hne, ha]
  rw [hform,
    removeIdentifier_eq_some (splitFirstDot_append (tagChars n) a (dot_not_mem_tagChars n))]
  have ht : isTagSegment ((tagChars n, a) : Str × Str).1 = true := isTagSegment_tagChars n
  rw [if_pos ht]

theorem removeIdentifier_snd_nil (s : Str) (h : (removeIdentifier s).2 = []) :
    removeIdentifier s = (s, []) := by
  cases hs : splitFirstDot s with
  | none => exact removeIdentifier_eq_none hs
  | some p =>
    rw [removeIdentifier_eq_some hs] at h ⊢
    by_cases ht : isTagSegment p.1 = true
    · rw [if_pos ht] at h
      have hp : p.1 = [] := h
      rw [hp] at ht
      exact absurd ht (by decide)
    · rw [if_neg ht]

/-- Claim C2 counterexample: the round trip fails as universally stated.  At
the empty address, addTag("", 0) is the bare tag `__0__` (spec section 4.D),
which stripTag does not split, so the pair returned is ("__0__", "") and not
("", "__0__").  And for n = -1 at an address that itself begins with a tag
segment, such as "__0__.x", stripTag removes that segment, returning
("x", "__0__") rather than ("__0__.x", ""). -/
theorem tag_roundtrip_cex :
    removeIdentifier (addIdentifier [] 0) ≠ (([] : Str), tagChars 0) ∧
    removeIdentifier (addIdentifier (['_', '_', '0', '_', '_', '.', 'x'] : Str) (-1)) ≠
      ((['_', '_', '0', '_', '_', '.', 'x'] : Str), []) := by
  decide

/-- Claim C2 (amended): for every nonempty address a and every n >= 0,
stripTag(addTag(a, n)) = (a, "__n__"); for n = -1, addTag returns the address
unchanged, and stripTag(addTag(b, -1)) = (b, "") for every address b that does
not itself begin with a `__<m>__` dot-separated component. -/
theorem tag_roundtrip_amended (a : Str) (n : Nat) (ha : a ≠ []) (b : Str)
    (hb : startsWithTag b = false) :
    removeIdentifier (addIdentifier a (n : Int)) = (a, tagChars n) ∧
    addIdentifier b (-1) = b ∧
    removeIdentifier (addIdentifier b (-1)) = (b, []) := by
  have h1 : addIdentifier b (-1) = b := by simp [addIdentifier]
  have h2 : (removeIdentifier b).2 = [] := by
    have hb2 := hb
    unfold startsWithTag at hb2
    cases hrm : (removeIdentifier b).2 with
    | nil => rfl
    | cons x xs => rw [hrm] at hb2; simp at hb2
  exact ⟨removeIdentifier_addIdentifier a n ha, h1,
    by rw [h1]; exact removeIdentifier_snd_nil b h2⟩

/-- Witness for the amended C2 round trip at the concrete address "x" with
tag index 2, and at the untagged concrete address "ab.c" for n = -1. -/
theorem tag_roundtrip_amended_witness :
    ((['x'] : Str) ≠ [] ∧ startsWithTag (['a', 'b', '.', 'c'] : Str) = false) ∧
    (removeIdentifier (addIdentifier ['x'] ((2 : Nat) : Int)) = (['x'], tagChars 2) ∧
      addIdentifier ['a', 'b', '.', 'c'] (-1) = ['a', 'b', '.', 'c'] ∧
      removeIdentifier (addIdentifier ['a', 'b', '.', 'c'] (-1)) =
        (['a', 'b', '.', 'c'], [])) :=
  ⟨⟨by decide, by decide⟩,
    tag_roundtrip_amended ['x'] 2 (by decide) ['a', 'b', '.', 'c'] (by decide)⟩

theorem mapLookup_cacheSet_ne (cache : List (Str × Nat)) (q p : Str) (exp : Nat)
    (h : ¬(q = p)) : mapLookup p (cacheSet cache q exp) = mapLookup p cache := by
  simp [cacheSet, mapLookup, h]

theorem routeFold_dropped (ttl : Nat) (p : Str) :
    ∀ (evs : List Event) (st : RouterState) (exp : Nat),
      mapLookup p st.cache = some exp →
      (∀ e ∈ evs, isAppWithPid p e = true → e.time ≤ exp) →
      mapLookup p (List.foldl (routerStep ttl) st evs).cache = some exp ∧
        (List.foldl (routerStep ttl) st evs).published.countP
            (fun m => decide (m.pid = p)) =
          st.published.countP (fun m => decide (m.pid = p)) := by
  intro evs
  induction evs with
  | nil => intro st exp h _; exact ⟨h, rfl⟩
  | cons e rest ih =>
    intro st exp hlook hw
    rw [List.foldl_cons]
    have hpres : mapLookup p (routerStep ttl st e).cache = some exp ∧
        (routerStep ttl st e).published.countP (fun m => decide (m.pid = p)) =
          st.published.countP (fun m => decide (m.pid = p)) := by
      unfold routerStep
      by_cases hs : e.msg.isSession = true
      · rw [if_pos hs]; exact ⟨hlook, rfl⟩
      · have hsess : e.msg.isSession = false := by
          cases hval : e.msg.isSession
          · rfl
          · exact absurd hval hs
        rw [if_neg hs]
        by_cases hg : cacheGet st.cache e.msg.pid e.time = true
        · rw [if_pos hg]; exact ⟨hlook, rfl⟩
        · rw [if_neg hg]
          have hpid : ¬(e.msg.pid = p) := by
            intro he
            apply hg
            unfold cacheGet
            rw [he, hlook]
            have happ : isAppWithPid p e = true := by
              unfold isAppWithPid
              rw [hsess, he]
              simp
            have ht := hw e (List.mem_cons_self e rest) happ
            simpa using ht
          constructor
          · show mapLookup p (cacheSet st.cache e.msg.pid (e.time + ttl)) = some exp
            rw [mapLookup_cacheSet_ne st.cache e.msg.pid p (e.time + ttl) hpid]
            exact hlook
          · show (st.published ++ [publishMsg e.msg]).countP
                (fun m => decide (m.pid = p)) =
              st.published.countP (fun m => decide (m.pid = p))
            simp [List.countP_append, List.countP_cons, publishMsg, hpid]
    obtain ⟨h1, h2⟩ := hpres
    have hrest := ih (routerStep ttl st e) exp h1
      (fun e2 hm he => hw e2 (List.mem_cons_of_mem e hm) he)
    exact ⟨hrest.1, by rw [hrest.2, h2]⟩

theorem routeFold_first (ttl : Nat) (p : Str) :
    ∀ (evs : List Event) (st : RouterState) (e0 : Event),
      mapLookup p st.cache = none →
      evs.find? (isAppWithPid p) = some e0 →
      (∀ e ∈ evs, isAppWithPid p e = true → e.time ≤ e0.time + ttl) →
      (List.foldl (routerStep ttl) st evs).published.countP
          (fun m => decide (m.pid = p)) =
        st.published.countP (fun m => decide (m.pid = p)) + 1 := by
  intro evs
  induction evs with
  | nil => intro st e0 _ hf _; simp at hf
  | cons e rest ih =>
    intro st e0 hnone hf hw
    rw [List.foldl_cons]
    by_cases happ : isAppWithPid p e = true
    · have he0 : e0 = e := by
        rw [List.find?_cons_of_pos _ happ] at hf
        exact (Option.some.inj hf).symm
      subst he0
      have hsess : e0.msg.isSession = false := by
        unfold isAppWithPid at happ
        rw [Bool.and_eq_true] at happ
        cases hval : e0.msg.isSession
        · rfl
        · rw [hval] at happ
          simp at happ
      have hpid : e0.msg.pid = p := by
        unfold isAppWithPid at happ
        rw [Bool.and_eq_true] at happ
        exact of_decide_eq_true happ.2
      have hget : cacheGet st.cache e0.msg.pid e0.time = false := by
        unfold cacheGet
        rw [hpid, hnone]
      have hstep : routerStep ttl st e0 =
          { cache := cacheSet st.cache e0.msg.pid (e0.time + ttl)
            published := st.published ++ [publishMsg e0.msg] } := by
        simp [routerStep, hsess, hget]
      rw [hstep]
      have hlook2 : mapLookup p
          ({ cache := cacheSet st.cache e0.msg.pid (e0.time + ttl)
             published := st.published ++ [publishMsg e0.msg] } : RouterState).cache =
          some (e0.time + ttl) := by
        show mapLookup p (cacheSet st.cache e0.msg.pid (e0.time + ttl)) =
          some (e0.time + ttl)
        simp [cacheSet, mapLookup, hpid]
      have hdrop := routeFold_dropped ttl p rest
        { cache := cacheSet st.cache e0.msg.pid (e0.time + ttl)
          published := st.published ++ [publishMsg e0.msg] }
        (e0.time + ttl) hlook2
        (fun e2 hm he => hw e2 (List.mem_cons_of_mem e0 hm) he)
      rw [hdrop.2]
      show (st.published ++ [publishMsg e0.msg]).countP (fun m => decide (m.pid = p)) =
        st.published.countP (fun m => decide (m.pid = p)) + 1
      simp [List.countP_append, List.countP_cons, publishMsg, hpid]
    · have hf2 : rest.find? (isAppWithPid p) = some e0 := by
        rw [List.find?_cons_of_neg _ happ] at hf
        exact hf
      have hpres : mapLookup p (routerStep ttl st e).cache = none ∧
          (routerStep ttl st e).published.countP (fun m => decide (m.pid = p)) =
            st.published.countP (fun m => decide (m.pid = p)) := by
        unfold routerStep
        by_cases hs : e.msg.isSession = true
        · rw [if_pos hs]; exact ⟨hnone, rfl⟩
        · have hsess : e.msg.isSession = false := by
            cases hval : e.msg.isSession
            · rfl
            · exact absurd hval hs
          rw [if_neg hs]
          by_cases hg : cacheGet st.cache e.msg.pid e.time = true
          · rw [if_pos hg]; exact ⟨hnone, rfl⟩
          · rw [if_neg hg]
            have hpid : ¬(e.msg.pid = p) := by
              intro he
              apply happ
              unfold isAppWithPid
              rw [hsess, he]
              simp
            constructor
            · show mapLookup p (cacheSet st.cache e.msg.pid (e.time + ttl)) = none
              rw [mapLookup_cacheSet_ne st.cache e.msg.pid p (e.time + ttl) hpid]
              exact hnone
            · show (st.published ++ [publishMsg e.msg]).countP
                  (fun m => decide (m.pid = p)) =
                st.published.countP (fun m => decide (m.pid = p))
              simp [List.countP_append, List.countP_cons, publishMsg, hpid]
      obtain ⟨h1, h2⟩ := hpres
      have hrest := ih (routerStep ttl st e) e0 h1 hf2
        (fun e2 hm he => hw e2 (List.mem_cons_of_mem e hm) he)
      rw [hrest, h2]

/-- Claim C1: each fan-in router step on an application (non-session) message
drops the message when its Pid is already in the deduplication cache (seen
within the TTL) and otherwise adds the Pid and publishes the message; hence,
over any trace of inbound events in which some application message with Pid p
arrives (possibly repeatedly, over several subclients) and every arrival falls
within the cache TTL of the first one, exactly one message with Pid p is
published to the application. -/
theorem dedup_publishes_exactly_once (ttl : Nat) (evs : List Event) (p : Str)
    (e0 : Event) (hf : evs.find? (isAppWithPid p) = some e0)
    (hw : ∀ e ∈ evs, isAppWithPid p e = true → e.time ≤ e0.time + ttl) :
    (∀ (st : RouterState) (e : Event), e.msg.isSession = false →
        (cacheGet st.cache e.msg.pid e.time = true → routerStep ttl st e = st) ∧
        (cacheGet st.cache e.msg.pid e.time = false →
          routerStep ttl st e =
            { cache := cacheSet st.cache e.msg.pid (e.time + ttl)
              published := st.published ++ [publishMsg e.msg] })) ∧
    (routeAll ttl evs).published.countP (fun m => decide (m.pid = p)) = 1 := by
  constructor
  · intro st e hsess
    constructor
    · intro hg
      simp [routerStep, hsess, hg]
    · intro hg
      simp [routerStep, hsess, hg]
  · have h0 : mapLookup p (({ cache := [], published := [] } : RouterState)).cache =
        none := rfl
    have := routeFold_first ttl p evs { cache := [], published := [] } e0 h0 hf hw
    unfold routeAll
    rw [this]
    rfl

/-- Witness for C1: two deliveries of the same Pid over subclients 0 and 1,
six time units apart and within a TTL of 100, publish exactly one message. -/
theorem dedup_publishes_exactly_once_witness :
    (([⟨0, 5, ⟨['_', '_', '0', '_', '_', '.', 'a'], ['p'], [], false, true⟩⟩,
       ⟨1, 11, ⟨['_', '_', '1', '_', '_', '.', 'a'], ['p'], [], false, true⟩⟩] :
        List Event).find? (isAppWithPid ['p']) =
      some ⟨0, 5, ⟨['_', '_', '0', '_', '_', '.', 'a'], ['p'], [], false, true⟩⟩) ∧
    (routeAll 100
        [⟨0, 5, ⟨['_', '_', '0', '_', '_', '.', 'a'], ['p'], [], false, true⟩⟩,
         ⟨1, 11, ⟨['_', '_', '1', '_', '_', '.', 'a'], ['p'], [], false, true⟩⟩]).published.countP
      (fun m => decide (m.pid = ['p'])) = 1 :=
  ⟨by decide,
    (dedup_publishes_exactly_once 100
      [⟨0, 5, ⟨['_', '_', '0', '_', '_', '.', 'a'], ['p'], [], false, true⟩⟩,
       ⟨1, 11, ⟨['_', '_', '1', '_', '_', '.', 'a'], ['p'], [], false, true⟩⟩]
      ['p']
      ⟨0, 5, ⟨['_', '_', '0', '_', '_', '.', 'a'], ['p'], [], false, true⟩⟩
      (by decide) (by decide)).2⟩

theorem mem_routeAll_published (ttl : Nat) :
    ∀ (evs : List Event) (st : RouterState) (m : OutMsg),
      m ∈ (List.foldl (routerStep ttl) st evs).published →
      m ∈ st.published ∨ ∃ e ∈ evs, e.msg.isSession = false ∧ m = publishMsg e.msg := by
  intro evs
  induction evs with
  | nil => intro st m h; exact Or.inl h
  | cons e rest ih =>
    intro st m h
    rw [List.foldl_cons] at h
    rcases ih (routerStep ttl st e) m h with hst | ⟨e2, he2, hs2, hp2⟩
    · unfold routerStep at hst
      by_cases hs : e.msg.isSession = true
      · rw [if_pos hs] at hst
        exact Or.inl hst
      · have hsess : e.msg.isSession = false := by
          cases hval : e.msg.isSession
          · rfl
          · exact absurd hval hs
        rw [if_neg hs] at hst
        by_cases hg : cacheGet st.cache e.msg.pid e.time = true
        · rw [if_pos hg] at hst
          exact Or.inl hst
        · rw [if_neg hg] at hst
          have hst2 : m ∈ st.published ++ [publishMsg e.msg] := hst
          rw [List.mem_append] at hst2
          rcases hst2 with hl | hr
          · exact Or.inl hl
          · rw [List.mem_singleton] at hr
            exact Or.inr ⟨e, List.mem_cons_self e rest, hsess, hr⟩
    · exact Or.inr ⟨e2, List.mem_cons_of_mem e he2, hs2, hp2⟩

theorem strip_wellFormed {s : Str} (h : wellFormedSrc s) :
    startsWithTag ((removeIdentifier s).1) = false := by
  obtain ⟨a, i, ha, hna, hi, hs⟩ := h
  subst hs
  rcases hi with hi | hi
  · subst hi
    have hid : addIdentifier a (-1) = a := by simp [addIdentifier]
    rw [hid]
    have h2 : (removeIdentifier a).2 = [] := by
      have hb2 := hna
      unfold startsWithTag at hb2
      cases hrm : (removeIdentifier a).2 with
      | nil => rfl
      | cons x xs => rw [hrm] at hb2; simp at hb2
    rw [removeIdentifier_snd_nil a h2]
    exact hna
  · obtain ⟨n, rfl⟩ := Int.eq_ofNat_of_zero_le hi
    rw [removeIdentifier_addIdentifier a n ha]
    exact hna

/-- Claim C3 counterexample: the router strips only one leading tag segment,
so an inbound message whose source is "__1__.__2__.x" is published with Src
"__2__.x", which still begins with a `__<n>__` dot-separated prefix. -/
theorem src_strip_cex :
    (routeAll 1 [cexEvent]).published.map (fun m => m.src) =
      [['_', '_', '2', '_', '_', '.', 'x']] ∧
    startsWithTag ['_', '_', '2', '_', '_', '.', 'x'] = true := by
  decide

/-- Claim C3 (amended): every message published on the application OnMessage
channel, and every message returned by Send or SendWithClient, has had exactly
one leading subclient tag stripped from its Src; consequently, whenever the
raw sources are well formed (a logical address that is nonempty, does not
itself begin with a tag segment, and carries at most one subclient tag), the
Src observed by the application never begins with a `__<n>__` dot-separated
prefix. -/
theorem src_strip_amended (ttl : Nat) (evs : List Event)
    (hwf : ∀ e ∈ evs, wellFormedSrc e.msg.src) :
    (∀ m ∈ (routeAll ttl evs).published,
        (∃ e ∈ evs, e.msg.isSession = false ∧ m = publishMsg e.msg) ∧
          startsWithTag m.src = false) ∧
    (∀ resp : InMsg, wellFormedSrc resp.src →
        (stripRespMsg resp).src = (removeIdentifier resp.src).1 ∧
          startsWithTag (stripRespMsg resp).src = false) := by
  constructor
  · intro m hm
    rcases mem_routeAll_published ttl evs { cache := [], published := [] } m hm with
      h0 | ⟨e, he, hs, hp⟩
    · simp at h0
    · refine ⟨⟨e, he, hs, hp⟩, ?_⟩
      rw [hp]
      show startsWithTag ((removeIdentifier e.msg.src).1) = false
      exact strip_wellFormed (hwf e he)
  · intro resp h
    exact ⟨rfl, strip_wellFormed h⟩

/-- Witness for the amended C3 at a concrete trace: one application message
from the well-formed tagged source "__0__.ab" is published with Src "ab",
which carries no tag prefix; the same source stripped as a Send response also
carries no tag prefix. -/
theorem src_strip_amended_witness :
    (∀ m ∈ (routeAll 7
        [⟨0, 1, ⟨['_', '_', '0', '_', '_', '.', 'a', 'b'], ['q'], [], false, true⟩⟩]).published,
      startsWithTag m.src = false) ∧
    startsWithTag
      (stripRespMsg ⟨['_', '_', '0', '_', '_', '.', 'a', 'b'], ['q'], [], false, true⟩).src =
      false := by
  have hwf : ∀ e ∈ ([⟨0, 1, ⟨['_', '_', '0', '_', '_', '.', 'a', 'b'], ['q'], [], false, true⟩⟩] :
      List Event), wellFormedSrc e.msg.src := by
    intro e he
    rw [List.mem_singleton] at he
    subst he
    exact ⟨['a', 'b'], 0, by decide, by decide, Or.inr (by decide), by decide⟩
  have hmain := src_strip_amended 7
    [⟨0, 1, ⟨['_', '_', '0', '_', '_', '.', 'a', 'b'], ['q'], [], false, true⟩⟩] hwf
  refine ⟨fun m hm => (hmain.1 m hm).2, ?_⟩
  exact (hmain.2 ⟨['_', '_', '0', '_', '_', '.', 'a', 'b'], ['q'], [], false, true⟩
    ⟨['a', 'b'], 0, by decide, by decide, Or.inr (by decide), by decide⟩).2

theorem mapLookup_eq_none_of_no_key {α β : Type} [DecidableEq α] (k : α)
    (l : List (α × β)) (h : ∀ pr ∈ l, ¬(pr.1 = k)) : mapLookup k l = none := by
  induction l with
  | nil => rfl
  | cons pr rest ih =>
    have h1 := h pr (List.mem_cons_self pr rest)
    show (if pr.1 = k then some pr.2 else mapLookup k rest) = none
    rw [if_neg h1]
    exact ih (fun q hq => h q (List.mem_cons_of_mem pr hq))

/-- Claim C4: NewMultiClient returns an error if and only if every subclient
construction failed; when it succeeds, every failed index is simply absent
from the Clients map (a Go map read at such an index yields nil). -/
theorem newMultiClient_error_iff_all_fail (outcome : Int → Option Client)
    (n : Nat) (orig : Bool) :
    ((newMultiClient outcome n orig = Except.error CtorErr.noClientSucceeded) ↔
      ∀ i ∈ clientIndices n orig, outcome i = none) ∧
    (∀ mc, newMultiClient outcome n orig = Except.ok mc →
      ∀ i ∈ clientIndices n orig, outcome i = none →
        mapLookup i mc.clients = none) := by
  have hiff : (mcClients outcome n orig = []) ↔
      ∀ i ∈ clientIndices n orig, outcome i = none := by
    unfold mcClients
    rw [List.filterMap_eq_nil_iff]
    constructor
    · intro h i hi
      exact Option.map_eq_none'.mp (h i hi)
    · intro h i hi
      rw [h i hi]
      rfl
  constructor
  · constructor
    · intro herr
      by_cases hnil : mcClients outcome n orig = []
      · exact hiff.mp hnil
      · unfold newMultiClient at herr
        rw [if_neg hnil] at herr
        exact absurd herr (by simp)
    · intro hall
      unfold newMultiClient
      rw [if_pos (hiff.mpr hall)]
  · intro mc hmc i hi hout
    by_cases hnil : mcClients outcome n orig = []
    · unfold newMultiClient at hmc
      rw [if_pos hnil] at hmc
      exact absurd hmc (by simp)
    · unfold newMultiClient at hmc
      rw [if_neg hnil] at hmc
      have hmc2 := (Except.ok.inj hmc).symm
      rw [hmc2]
      show mapLookup i (mcClients outcome n orig) = none
      apply mapLookup_eq_none_of_no_key
      intro pr hpr hkey
      unfold mcClients at hpr
      rw [List.mem_filterMap] at hpr
      obtain ⟨j, _, hjeq⟩ := hpr
      rw [Option.map_eq_some'] at hjeq
      obtain ⟨c, hc, hpr2⟩ := hjeq
      rw [← hpr2] at hkey
      have hji : j = i := hkey
      rw [hji, hout] at hc
      exact Option.noConfusion hc

/-- Witness for C4: with every construction failing the constructor errors;
with only index 1 succeeding among indices 0,1,2 the constructor succeeds and
the failed index 0 is absent from the client map. -/
theorem newMultiClient_error_iff_all_fail_witness :
    newMultiClient (fun _ => none) 2 true = Except.error CtorErr.noClientSucceeded ∧
    mapLookup 0 (mcClients outcomeHoles 3 false) = none :=
  ⟨(newMultiClient_error_iff_all_fail (fun _ => none) 2 true).1.mpr (by decide),
    (newMultiClient_error_iff_all_fail outcomeHoles 3 false).2
      { offset := 0
        clients := mcClients outcomeHoles 3 false
        defaultClient := mapLookup 0 (mcClients outcomeHoles 3 false)
        isClosed := false
        onCloseClosed := false
        sessions := [] }
      rfl 0 (by decide) (by decide)⟩

/-- Claim C5: evaluation of the code at the spec's partial-construction
scenario (indices 0 and 2 fail, 1 succeeds, no original client).  The
constructor succeeds, but contrary to the claim the DefaultClient is the nil
read of the absent index 0, and Send's write responseChannels[1+0] lands
outside the slice of length len(m.Clients) = 1, a Go index-out-of-range
panic.  The internal broadcast `send`, by contrast, does skip the holes and
returns no error. -/
theorem partial_construction_divergence :
    (exceptOk (newMultiClient outcomeHoles 3 false)).isSome = true ∧
    (exceptOk (newMultiClient outcomeHoles 3 false)).map (fun m => m.defaultClient) =
      some none ∧
    (exceptOk (newMultiClient outcomeHoles 3 false)).map sendChannelIndexSafe =
      some false ∧
    (exceptOk (newMultiClient outcomeHoles 3 false)).map broadcastIDs = some [1] ∧
    (exceptOk (newMultiClient outcomeHoles 3 false)).map
      (fun m => (broadcastSend (fun _ => none) m.clients).2) = some none := by
  decide

/-- Claim C6: the internal broadcast send iterates the known subclients in
sequence; when the sends before some subclient succeed and that subclient's
send fails, it returns that first error having attempted exactly the
subclients up to and including the failing one (none after it), and when
every send succeeds it sends to all subclients and returns no error. -/
theorem send_first_error_aborts (sendRes : Int → Option SendErr)
    (pre post : List (Int × Client)) (f : Int × Client) (err : SendErr)
    (hpre : ∀ ic ∈ pre, sendRes ic.1 = none) (hf : sendRes f.1 = some err) :
    broadcastSend sendRes (pre ++ f :: post) =
      (pre.map (fun ic => ic.1) ++ [f.1], some err) ∧
    (∀ cs : List (Int × Client), (∀ ic ∈ cs, sendRes ic.1 = none) →
      broadcastSend sendRes cs = (cs.map (fun ic => ic.1), none)) := by
  have hall : ∀ cs : List (Int × Client), (∀ ic ∈ cs, sendRes ic.1 = none) →
      broadcastSend sendRes cs = (cs.map (fun ic => ic.1), none) := by
    intro cs
    induction cs with
    | nil => intro _; rfl
    | cons ic rest ih =>
      intro h
      have h1 := h ic (List.mem_cons_self ic rest)
      have ih2 := ih (fun x hx => h x (List.mem_cons_of_mem ic hx))
      unfold broadcastSend
      rw [h1, ih2]
      rfl
  have hfail : ∀ pre2 : List (Int × Client), (∀ ic ∈ pre2, sendRes ic.1 = none) →
      broadcastSend sendRes (pre2 ++ f :: post) =
        (pre2.map (fun ic => ic.1) ++ [f.1], some err) := by
    intro pre2
    induction pre2 with
    | nil =>
      intro _
      show broadcastSend sendRes (f :: post) = ([f.1], some err)
      unfold broadcastSend
      rw [hf]
    | cons ic rest ih =>
      intro h
      have h1 := h ic (List.mem_cons_self ic rest)
      have ih2 := ih (fun x hx => h x (List.mem_cons_of_mem ic hx))
      show broadcastSend sendRes (ic :: (rest ++ f :: post)) =
        (ic.1 :: (rest.map (fun ic => ic.1) ++ [f.1]), some err)
      unfold broadcastSend
      rw [h1, ih2]
  exact ⟨hfail pre hpre, hall⟩

/-- Witness for C6: sends at indices 0 and 1 succeed, index 2 fails, index 3
follows; the broadcast attempts exactly 0, 1, 2 and returns the failure, and
over the all-success map it attempts everything and returns no error. -/
theorem send_first_error_aborts_witness :
    broadcastSend (fun i => if i = 2 then some (SendErr.fail 9) else none)
      [(0, ⟨0⟩), (1, ⟨1⟩), (2, ⟨2⟩), (3, ⟨3⟩)] = ([0, 1, 2], some (SendErr.fail 9)) ∧
    broadcastSend (fun i => if i = 2 then some (SendErr.fail 9) else none)
      [(0, ⟨0⟩), (1, ⟨1⟩)] = ([0, 1], none) :=
  ⟨(send_first_error_aborts (fun i => if i = 2 then some (SendErr.fail 9) else none)
      [(0, ⟨0⟩), (1, ⟨1⟩)] [(3, ⟨3⟩)] (2, ⟨2⟩) (SendErr.fail 9)
      (by decide) (by decide)).1,
    (send_first_error_aborts (fun i => if i = 2 then some (SendErr.fail 9) else none)
      [(0, ⟨0⟩), (1, ⟨1⟩)] [(3, ⟨3⟩)] (2, ⟨2⟩) (SendErr.fail 9)
      (by decide) (by decide)).2
      [(0, ⟨0⟩), (1, ⟨1⟩)] (by decide)⟩

/-- Claim C7: the Reply closure attached to a published application message —
whose captured Src is the already-stripped source and whose captured Pid is
the originating message's Pid — builds an ACK-typed payload when invoked with
nil and a BINARY-typed payload carrying the response bytes when invoked with
bytes; in both cases the payload's Pid equals the originating message's Pid,
and the send targets the untagged source address with the message's
Encrypted flag. -/
theorem reply_closure_ack_binary_pid (e : InMsg) (r : Option Str) :
    (r = none →
      (replyClosure (publishMsg e).src e.pid e.encrypted r).payload =
        newAckPayload e.pid ∧
      (replyClosure (publishMsg e).src e.pid e.encrypted r).payload.ptype =
        PayloadType.ACK) ∧
    (∀ bs, r = some bs →
      (replyClosure (publishMsg e).src e.pid e.encrypted r).payload =
        newBinaryPayloadWithPid bs e.pid ∧
      (replyClosure (publishMsg e).src e.pid e.encrypted r).payload.ptype =
        PayloadType.BINARY ∧
      (replyClosure (publishMsg e).src e.pid e.encrypted r).payload.data = bs) ∧
    (replyClosure (publishMsg e).src e.pid e.encrypted r).payload.pid = e.pid ∧
    (replyClosure (publishMsg e).src e.pid e.encrypted r).dests =
      [(removeIdentifier e.src).1] ∧
    (replyClosure (publishMsg e).src e.pid e.encrypted r).encrypted = e.encrypted := by
  cases r with
  | none =>
    refine ⟨fun _ => ⟨rfl, rfl⟩, fun bs hbs => Option.noConfusion hbs, rfl, rfl, rfl⟩
  | some bs0 =>
    refine ⟨fun h => Option.noConfusion h, fun bs hbs => ?_, rfl, rfl, rfl⟩
    have hb : bs0 = bs := Option.some.inj hbs
    subst hb
    exact ⟨rfl, rfl, rfl⟩

/-- Witness for C7 at a concrete message from tagged source "__3__.z" with
Pid "k", invoked once with nil and once with bytes "w". -/
theorem reply_closure_ack_binary_pid_witness :
    (replyClosure
      (publishMsg ⟨['_', '_', '3', '_', '_', '.', 'z'], ['k'], [], false, true⟩).src
      ['k'] true none).payload.ptype = PayloadType.ACK ∧
    (replyClosure
      (publishMsg ⟨['_', '_', '3', '_', '_', '.', 'z'], ['k'], [], false, true⟩).src
      ['k'] true (some ['w'])).payload.ptype = PayloadType.BINARY ∧
    (replyClosure
      (publishMsg ⟨['_', '_', '3', '_', '_', '.', 'z'], ['k'], [], false, true⟩).src
      ['k'] true (some ['w'])).payload.pid = ['k'] ∧
    (replyClosure
      (publishMsg ⟨['_', '_', '3', '_', '_', '.', 'z'], ['k'], [], false, true⟩).src
      ['k'] true none).dests = [['z']] :=
  ⟨((reply_closure_ack_binary_pid
      ⟨['_', '_', '3', '_', '_', '.', 'z'], ['k'], [], false, true⟩ none).1 rfl).2,
    ((reply_closure_ack_binary_pid
      ⟨['_', '_', '3', '_', '_', '.', 'z'], ['k'], [], false, true⟩ (some ['w'])).2.1
      ['w'] rfl).2.1,
    (reply_closure_ack_binary_pid
      ⟨['_', '_', '3', '_', '_', '.', 'z'], ['k'], [], false, true⟩ (some ['w'])).2.2.1,
    by
      have h := (reply_closure_ack_binary_pid
        ⟨['_', '_', '3', '_', '_', '.', 'z'], ['k'], [], false, true⟩ none).2.2.2.1
      rw [h]
      decide⟩

theorem acceptLoop_all_fail (acceptRes : SessionH → Except NcpErr SessionH) :
    ∀ (choices : List Bool) (queue : List SessionH),
      (∀ s ∈ queue, ∃ err, acceptRes s = Except.error err) →
      acceptLoop acceptRes choices queue = Except.error NcpErr.closed := by
  intro choices
  induction choices with
  | nil => intro queue _; rfl
  | cons b ch ih =>
    intro queue h
    cases b
    · rfl
    · cases queue with
      | nil => rfl
      | cons s q =>
        obtain ⟨err, herr⟩ := h s (List.mem_cons_self s q)
        show (match acceptRes s with
          | Except.ok s2 => Except.ok s2
          | Except.error _ => acceptLoop acceptRes ch q) = Except.error NcpErr.closed
        rw [herr]
        exact ih q (fun x hx => h x (List.mem_cons_of_mem s hx))

/-- Claim C8: after Close returns, the closed flag is set (so every
subsequent IsClosed returns true, the flag being preserved by the modelled
state-changing operations), the onClose channel is closed, and any subsequent
or pending AcceptSession — whose queued sessions were all closed by Close, so
their ncp Accept fails — returns the ncp.Closed sentinel no matter how the
select resolves. -/
theorem close_isClosed_accept_closed (m : MCModel)
    (hinv : m.isClosed = true → m.onCloseClosed = true)
    (acceptRes : SessionH → Except NcpErr SessionH) (choices : List Bool)
    (queue : List SessionH)
    (hq : ∀ s ∈ queue, ∃ err, acceptRes s = Except.error err) :
    isClosedMC (closeMC m).1 = true ∧
    (closeMC m).1.onCloseClosed = true ∧
    isClosedMC (closeMC (closeMC m).1).1 = true ∧
    (∀ ra sid ns dr, isClosedMC (dialWithConfig (closeMC m).1 ra sid ns dr).1 = true) ∧
    acceptLoop acceptRes choices queue = Except.error NcpErr.closed := by
  have hcc : ∀ m2 : MCModel, m2.isClosed = true →
      closeMC m2 = (m2, Except.ok (), ⟨[], [], false⟩) := by
    intro m2 h
    unfold closeMC
    rw [if_pos h]
  have hstate : (closeMC m).1.isClosed = true ∧ (closeMC m).1.onCloseClosed = true := by
    by_cases h : m.isClosed = true
    · rw [hcc m h]
      exact ⟨h, hinv h⟩
    · unfold closeMC
      rw [if_neg h]
      exact ⟨rfl, rfl⟩
  have hdial : ∀ (m2 : MCModel) (ra sid : Str) (ns : Except NcpErr SessionH)
      (dr : SessionH → Option NcpErr),
      (dialWithConfig m2 ra sid ns dr).1.isClosed = m2.isClosed := by
    intro m2 ra sid ns dr
    cases ns with
    | error err => rfl
    | ok s =>
      show (dialStep { m2 with sessions := ((ra, sid), s) :: m2.sessions } s
        (dr s)).1.isClosed = m2.isClosed
      cases dr s
      · rfl
      · rfl
  refine ⟨hstate.1, hstate.2, ?_, ?_, acceptLoop_all_fail acceptRes choices queue hq⟩
  · show (closeMC (closeMC m).1).1.isClosed = true
    rw [hcc (closeMC m).1 hstate.1]
    exact hstate.1
  · intro ra sid ns dr
    show (dialWithConfig (closeMC m).1 ra sid ns dr).1.isClosed = true
    rw [hdial]
    exact hstate.1

/-- Witness for C8 at a concrete open MultiClient with one session in the
accept queue whose Accept fails, over a concrete select-choice sequence. -/
theorem close_isClosed_accept_closed_witness :
    isClosedMC
      (closeMC ⟨0, [(0, ⟨5⟩)], some ⟨5⟩, false, false, [((['a'], ['s']), ⟨7⟩)]⟩).1 =
      true ∧
    acceptLoop (fun _ => Except.error NcpErr.other) [true, false] [⟨7⟩] =
      Except.error NcpErr.closed :=
  ⟨(close_isClosed_accept_closed
      ⟨0, [(0, ⟨5⟩)], some ⟨5⟩, false, false, [((['a'], ['s']), ⟨7⟩)]⟩
      (fun h => absurd h (by decide))
      (fun _ => Except.error NcpErr.other) [true, false] [⟨7⟩]
      (fun s _ => ⟨NcpErr.other, rfl⟩)).1,
    (close_isClosed_accept_closed
      ⟨0, [(0, ⟨5⟩)], some ⟨5⟩, false, false, [((['a'], ['s']), ⟨7⟩)]⟩
      (fun h => absurd h (by decide))
      (fun _ => Except.error NcpErr.other) [true, false] [⟨7⟩]
      (fun s _ => ⟨NcpErr.other, rfl⟩)).2.2.2.2⟩

/-- Claim C9: Close on an already-closed MultiClient is a no-op: it returns
nil, leaves the state exactly as it was, closes no session and no subclient
again, and does not close the onClose channel again. -/
theorem close_idempotent (m : MCModel) (h : m.isClosed = true) :
    closeMC m = (m, Except.ok (), ⟨[], [], false⟩) := by
  unfold closeMC
  rw [if_pos h]

/-- Witness for C9 at a concrete closed MultiClient holding one session and
one subclient: the second Close changes nothing and reports no effect. -/
theorem close_idempotent_witness :
    (⟨1, [(-1, ⟨2⟩)], some ⟨2⟩, true, true, [((['b'], ['t']), ⟨9⟩)]⟩ :
        MCModel).isClosed = true ∧
    closeMC ⟨1, [(-1, ⟨2⟩)], some ⟨2⟩, true, true, [((['b'], ['t']), ⟨9⟩)]⟩ =
      (⟨1, [(-1, ⟨2⟩)], some ⟨2⟩, true, true, [((['b'], ['t']), ⟨9⟩)]⟩,
        Except.ok (), ⟨[], [], false⟩) :=
  ⟨rfl, close_idempotent
    ⟨1, [(-1, ⟨2⟩)], some ⟨2⟩, true, true, [((['b'], ['t']), ⟨9⟩)]⟩ rfl⟩

/-- Claim C10: when the freshly constructed session's active-open Dial fails,
DialWithConfig returns that error, yet the session is still present in the
session table under its (remoteAddr, sessionID) key — the insertion performed
before Dial is not rolled back. -/
theorem dial_error_keeps_session (m : MCModel) (ra sid : Str) (s : SessionH)
    (err : NcpErr) (dialRes : SessionH → Option NcpErr)
    (hd : dialRes s = some err) :
    (dialWithConfig m ra sid (Except.ok s) dialRes).2 = Except.error err ∧
    mapLookup (ra, sid) (dialWithConfig m ra sid (Except.ok s) dialRes).1.sessions =
      some s := by
  have hstep : dialWithConfig m ra sid (Except.ok s) dialRes =
      dialStep { m with sessions := ((ra, sid), s) :: m.sessions } s (dialRes s) := rfl
  rw [hstep, hd]
  constructor
  · rfl
  · show mapLookup (ra, sid) (((ra, sid), s) :: m.sessions) = some s
    show (if ((ra, sid) : Str × Str) = (ra, sid) then some s
      else mapLookup (ra, sid) m.sessions) = some s
    rw [if_pos rfl]

/-- Witness for C10 at a concrete client, remote address "c", session id "i"
and a Dial that fails with the non-sentinel error. -/
theorem dial_error_keeps_session_witness :
    (dialWithConfig ⟨0, [(0, ⟨1⟩)], some ⟨1⟩, false, false, []⟩ ['c'] ['i']
        (Except.ok ⟨4⟩) (fun _ => some NcpErr.other)).2 =
      Except.error NcpErr.other ∧
    mapLookup (['c'], ['i'])
        (dialWithConfig ⟨0, [(0, ⟨1⟩)], some ⟨1⟩, false, false, []⟩ ['c'] ['i']
          (Except.ok ⟨4⟩) (fun _ => some NcpErr.other)).1.sessions =
      some ⟨4⟩ :=
  dial_error_keeps_session ⟨0, [(0, ⟨1⟩)], some ⟨1⟩, false, false, []⟩ ['c'] ['i']
    ⟨4⟩ NcpErr.other (fun _ => some NcpErr.other) rfl

end Nkn
